import Mathlib

/-!
# Verification of the KHIND receipt field-extraction engine

This file is a shallow embedding, in Lean 4, of the field-extraction and
validity-decision engine of the `khind-receipt-ocr` repository
(`app/parsers.py` together with the validity branch of `app/main.py`),
and proofs of the specified properties of that engine.

Modelling conventions:

* OCR text lines are `List Char`; `S` converts a string literal.
  All character-level operations (`upper`, `lower`, `\w`, `\d`, `\s`)
  are modelled over ASCII, which covers the engine's constants and the
  receipts' OCR output.
* Monetary values are carried in exact cents (`ℕ`).  Every number the
  engine extracts comes from a pattern with zero or exactly two decimal
  digits, so Python's `float` round-trip (`_to_float` followed by
  `f"RM..:.2f"` formatting) is exact on every value the code compares
  or emits, and the cents model is faithful: float conversion is
  monotone, and the bound endpoints 2.00 and 100000.00 are exactly
  representable, so bound checks and maxima agree with the exact model.
* Python's `re` patterns are embedded by a small backtracking matcher
  (`Rx` / `mrun`) with Python semantics: leftmost match, earlier
  alternative preferred, greedy quantifiers, word boundaries, and
  single-character-class lookarounds (the only lookarounds the code
  uses).  The fuel argument only bounds the recursion depth of the
  interpreter; it is chosen far above what any pattern of the source
  can consume, so it never truncates a search.
* The optional curated modules (`store_hints_w4`, `product_hints_w4`,
  `items_hints_w4`, `store_loc_map_w4`) are not part of this
  repository, so the import probes in `parsers.py` all fail and the
  corresponding globals are `None`; they are embedded as `none`
  constants.
* Python `try`/`except` around `_to_float` in `extract_amount_spent`
  is dead (the regex groups always parse), and exceptions never escape
  `_normalize_amount`; fallible parsing is an `Option`.
-/

set_option maxRecDepth 16384

namespace KhindOCR

/-- Convert a string literal to the `List Char` line representation. -/
def S (s : String) : List Char := s.data

/-- ASCII decimal digit, Python regex `\d` on the engine's inputs. -/
def isPyDigit (c : Char) : Bool := '0' ≤ c && c ≤ '9'

/-- Python `\s` whitespace (ASCII part). -/
def isPySpace (c : Char) : Bool :=
  c == ' ' || c == '\t' || c == '\n' || c == '\r' || c == '\x0b' || c == '\x0c'

/-- ASCII letter, regex class `[A-Za-z]`. -/
def isAsciiAlpha (c : Char) : Bool := ('A' ≤ c && c ≤ 'Z') || ('a' ≤ c && c ≤ 'z')

/-- ASCII upper-case letter, regex class `[A-Z]`. -/
def isUpperAZ (c : Char) : Bool := 'A' ≤ c && c ≤ 'Z'

/-- Regex class `[A-Z0-9]` (used in the product-code lookarounds). -/
def isUpperNum (c : Char) : Bool := isUpperAZ c || isPyDigit c

/-- Python regex `\w` word character (ASCII part). -/
def isWordChar (c : Char) : Bool := isAsciiAlpha c || isPyDigit c || c == '_'

/-- ASCII upper-casing of a line, Python `str.upper`. -/
def upperL (s : List Char) : List Char := s.map Char.toUpper

/-- ASCII lower-casing of a line, Python `str.lower` (and, on ASCII,
`str.casefold`). -/
def lowerL (s : List Char) : List Char := s.map Char.toLower

/-- Python `str.strip()`: drop leading and trailing whitespace. -/
def stripL (s : List Char) : List Char :=
  ((s.dropWhile isPySpace).reverse.dropWhile isPySpace).reverse

/-- Python `str.strip("-")`: drop leading and trailing dashes. -/
def stripDash (s : List Char) : List Char :=
  ((s.dropWhile (· == '-')).reverse.dropWhile (· == '-')).reverse

/-- Python substring test `needle in hay`. -/
def containsL (needle : List Char) : List Char → Bool
  | [] => needle.isPrefixOf ([] : List Char)
  | c :: t => needle.isPrefixOf (c :: t) || containsL needle t

/-- Python `str.split()` with no argument: split on whitespace runs,
dropping empty pieces. -/
def splitWs : List Char → List (List Char)
  | [] => []
  | c :: t =>
    if isPySpace c then splitWs t
    else
      match splitWs t with
      | [] => [[c]]
      | w :: ws =>
        match t with
        | [] => [[c]]
        | d :: _ => if isPySpace d then [c] :: w :: ws else (c :: w) :: ws

/-- Python `str.isdigit` (ASCII): nonempty and all digits. -/
def isdigitL (s : List Char) : Bool := !s.isEmpty && s.all isPyDigit

/-- The part of `s` after the last occurrence of the character `sep`,
or all of `s` if `sep` does not occur: Python `s.rsplit(sep, 1)[-1]`
for a one-character separator. -/
def afterLast (sep : Char) (s : List Char) : List Char :=
  (s.reverse.takeWhile (· ≠ sep)).reverse

/-- Split at the first occurrence of the substring `sep`:
`some (before, after)` if `sep` occurs, else `none`
(Python `s.split(sep, 1)` yielding two rsp. one piece). -/
def splitOnce (sep : List Char) : List Char → Option (List Char × List Char)
  | [] => if sep.isPrefixOf ([] : List Char) then some ([], []) else none
  | c :: t =>
    if sep.isPrefixOf (c :: t) then some ([], (c :: t).drop sep.length)
    else (splitOnce sep t).map (fun p => (c :: p.1, p.2))

/-- Numeric value of a digit string. -/
def natOfDigits (s : List Char) : ℕ :=
  s.foldl (fun n c => 10 * n + (c.toNat - '0'.toNat)) 0

/-- Slice `s[b:e]` of a line. -/
def sl (s : List Char) (b e : ℕ) : List Char := (s.take e).drop b

end KhindOCR

namespace KhindOCR

/-!
## A small backtracking regex interpreter

Just enough of Python `re` for the patterns of `parsers.py`: character
classes, concatenation, alternation (earlier alternative preferred),
greedy `?`/`*`/`{lo,hi}`, capture groups, `\b`, and the
single-character-class lookarounds `(?![...])` / `(?<![...])`.
-/

/-- Regex abstract syntax. -/
inductive Rx where
  | eps : Rx
  | ch (p : Char → Bool) : Rx
  | seq (a b : Rx) : Rx
  | alt (a b : Rx) : Rx
  | opt (a : Rx) : Rx
  | star (a : Rx) : Rx
  | rep (a : Rx) (lo hi : ℕ) : Rx
  | grp (n : ℕ) (a : Rx) : Rx
  | wb : Rx
  | peekNot (p : Char → Bool) : Rx
  | backNot (p : Char → Bool) : Rx

/-- Capture list: group index with half-open span, most recent first. -/
abbrev Caps := List (ℕ × ℕ × ℕ)

/-- Is position `j` of `s` on a word character? -/
def wordAt (s : List Char) (j : ℕ) : Bool :=
  match s.get? j with
  | some c => isWordChar c
  | none => false

/-- Does a `\b` word boundary hold at position `i` of `s`? -/
def boundaryAt (s : List Char) (i : ℕ) : Bool :=
  (if i = 0 then false else wordAt s (i - 1)) != wordAt s i

/-- The backtracking matcher, in continuation-passing style.  `k`
receives the position after the current sub-pattern and the captures
accumulated so far; failure of the continuation backtracks into the
pattern's remaining choices, as in Python `re`. -/
def mrun (s : List Char) :
    ℕ → Rx → ℕ → Caps → (ℕ → Caps → Option (ℕ × Caps)) → Option (ℕ × Caps)
  | 0, _, _, _, _ => none
  | fuel + 1, r, i, cs, k =>
    match r with
    | .eps => k i cs
    | .ch p =>
      match s.get? i with
      | some c => if p c then k (i + 1) cs else none
      | none => none
    | .seq a b => mrun s fuel a i cs (fun j cs2 => mrun s fuel b j cs2 k)
    | .alt a b =>
      match mrun s fuel a i cs k with
      | some res => some res
      | none => mrun s fuel b i cs k
    | .opt a =>
      match mrun s fuel a i cs k with
      | some res => some res
      | none => k i cs
    | .star a =>
      match mrun s fuel a i cs
          (fun j cs2 => if i < j then mrun s fuel (.star a) j cs2 k else none) with
      | some res => some res
      | none => k i cs
    | .rep a lo hi =>
      match lo with
      | lo' + 1 => mrun s fuel a i cs (fun j cs2 => mrun s fuel (.rep a lo' (hi - 1)) j cs2 k)
      | 0 =>
        match hi with
        | 0 => k i cs
        | hi' + 1 =>
          match mrun s fuel a i cs (fun j cs2 => mrun s fuel (.rep a 0 hi') j cs2 k) with
          | some res => some res
          | none => k i cs
    | .grp n a => mrun s fuel a i cs (fun j cs2 => k j ((n, i, j) :: cs2))
    | .wb => if boundaryAt s i then k i cs else none
    | .peekNot p =>
      match s.get? i with
      | some c => if p c then none else k i cs
      | none => k i cs
    | .backNot p =>
      if i = 0 then k i cs
      else
        match s.get? (i - 1) with
        | some c => if p c then none else k i cs
        | none => k i cs

/-- Try to match `r` at exactly position `i`, returning the end
position and captures of the (leftmost-greedy) match. -/
def mtry (r : Rx) (s : List Char) (i : ℕ) : Option (ℕ × Caps) :=
  mrun s (s.length + 200) r i [] (fun j cs => some (j, cs))

/-- Scan start positions `i, i+1, ...` for the first match: Python
`re.search` semantics.  Returns (start, end, captures). -/
def searchFromAux (r : Rx) (s : List Char) : ℕ → ℕ → Option (ℕ × ℕ × Caps)
  | 0, _ => none
  | n + 1, i =>
    match mtry r s i with
    | some (e, cs) => some (i, e, cs)
    | none => searchFromAux r s n (i + 1)

/-- Python `re.search`. -/
def rxSearch (r : Rx) (s : List Char) : Option (ℕ × ℕ × Caps) :=
  searchFromAux r s (s.length + 1) 0

/-- Python `re.finditer`: non-overlapping matches, left to right,
resuming after each match (zero-width matches advance by one). -/
def findAllAux (r : Rx) (s : List Char) : ℕ → ℕ → List (ℕ × ℕ × Caps)
  | 0, _ => []
  | n + 1, i =>
    if s.length < i then []
    else
      match searchFromAux r s (s.length + 1 - i) i with
      | none => []
      | some (b, e, cs) => (b, e, cs) :: findAllAux r s n (if b < e then e else e + 1)

/-- All matches of `r` in `s` (Python `finditer`). -/
def rxFindAll (r : Rx) (s : List Char) : List (ℕ × ℕ × Caps) :=
  findAllAux r s (s.length + 1) 0

/-- Span of capture group `n` in a match, Python `m.span(n)`; the most
recent capture of that group wins, `none` if the group did not take
part in the match. -/
def capGet (cs : Caps) (n : ℕ) : Option (ℕ × ℕ) :=
  (cs.find? (fun t => t.1 == n)).map (fun t => t.2)

/-- Literal character (case-sensitive). -/
def chC (c : Char) : Rx := .ch (fun x => x == c)

/-- Literal character under `re.IGNORECASE` (ASCII). -/
def chI (c : Char) : Rx := .ch (fun x => x.toLower == c.toLower)

/-- Right-nested sequence of sub-patterns. -/
def sseq (l : List Rx) : Rx := l.foldr .seq .eps

/-- Alternation of a list, earlier entries preferred; the empty list
never matches. -/
def altList (l : List Rx) : Rx := l.foldr .alt (.ch (fun _ => false))

/-- Case-insensitive literal string. -/
def litI (s : String) : Rx := sseq (s.data.map chI)

/-- Case-sensitive literal string. -/
def litC (s : String) : Rx := sseq (s.data.map chC)

/-- Pattern `\s` as a pattern. -/
def wsRx : Rx := .ch isPySpace

/-- Pattern `\d` as a pattern. -/
def dRx : Rx := .ch isPyDigit

/-- Pattern `\d+`. -/
def digitsRx : Rx := .seq dRx (.star dRx)

/-!
## The numeric patterns of `parsers.py`
-/

/-- Pattern `\d{1,3}`. -/
def rxD13 : Rx := .rep dRx 1 3

/-- Pattern `\d{3}`. -/
def rxD3 : Rx := .rep dRx 3 3

/-- Pattern `\.\d{2}`. -/
def rxDotDD : Rx := .seq (chC '.') (.rep dRx 2 2)

/-- Pattern `(?:,\d{3})*`. -/
def rxKGroups : Rx := .star (.seq (chC ',') rxD3)

/-- Pattern `_NUM = (?:\d{1,3}(?:,\d{3})*(?:\.\d{2})|\d+(?:\.\d{2})?)`. -/
def rxNUM : Rx := .alt (sseq [rxD13, rxKGroups, rxDotDD]) (.seq digitsRx (.opt rxDotDD))

/-- Pattern `_CCY = (?:RM|MYR|R\s*M)` under `re.I`. -/
def rxCCY : Rx := altList [litI "RM", litI "MYR", sseq [chI 'R', .star wsRx, chI 'M']]

/-- Pattern `_SEP = [:=\-\s]*`. -/
def rxSEP : Rx := .star (.ch (fun c => c == ':' || c == '=' || c == '-' || isPySpace c))

/-- One two-word total keyword with `\s*` between the words. -/
def kwPair (a b : String) : Rx := sseq [litI a, .star wsRx, litI b]

/-- Pattern `KW_TOTAL`: the total/net/balance/amount-due keyword alternation,
in source order, with `total\b` last. -/
def rxKW : Rx :=
  altList
    [kwPair "grand" "total", kwPair "total" "amount", kwPair "total" "payable",
     kwPair "total" "price", kwPair "net" "amount", kwPair "net" "total",
     kwPair "amount" "due", kwPair "amount" "payable", kwPair "balance" "due",
     sseq [litI "total", .star wsRx, litI "after", .star wsRx, litI "discount"],
     .seq (litI "total") .wb]

/-- Pattern `RE_KW_LEFT = KW_TOTAL _SEP _CCY? \s* (_NUM) \b` under `re.I`. -/
def RE_KW_LEFT : Rx := sseq [rxKW, rxSEP, .opt rxCCY, .star wsRx, .grp 1 rxNUM, .wb]

/-- Pattern `RE_KW_RIGHT = KW_TOTAL _SEP (_NUM) \s* _CCY \b` under `re.I`. -/
def RE_KW_RIGHT : Rx := sseq [rxKW, rxSEP, .grp 1 rxNUM, .star wsRx, rxCCY, .wb]

/-- Pattern `RE_ANY_CCY = _CCY \s* (_NUM) \b` under `re.I`. -/
def RE_ANY_CCY : Rx := sseq [rxCCY, .star wsRx, .grp 1 rxNUM, .wb]

/-- Pattern `RE_ANY_NUM = (_NUM)`. -/
def RE_ANY_NUM : Rx := .grp 1 rxNUM

/-- The `ccyval` branch body of `PRICE_TOKEN_RE`:
`\d{1,3}(?:,\d{3})*(?:\.\d{2})?|\d+\.\d{2}`. -/
def rxCCYVAL : Rx := .alt (sseq [rxD13, rxKGroups, .opt rxDotDD]) (.seq digitsRx rxDotDD)

/-- The `dec` branch body of `PRICE_TOKEN_RE`:
`\d{1,3}(?:,\d{3})*\.\d{2}`. -/
def rxDEC : Rx := sseq [rxD13, rxKGroups, rxDotDD]

/-- Pattern `PRICE_TOKEN_RE`: currency-tagged number (groups `ccy`=1,
`ccyval`=2) or a bare two-decimal number not adjacent to letters
(group `dec`=3). -/
def PRICE_TOKEN_RE : Rx :=
  .alt (sseq [.grp 1 rxCCY, .star wsRx, .grp 2 rxCCYVAL])
    (sseq [.backNot isAsciiAlpha, .grp 3 rxDEC, .peekNot isAsciiAlpha])

/-- Pattern `QTY_RE`: explicit QTY marker, `Nx`, `xN`, or `N` + unit word;
groups 1–4 capture the digits. -/
def QTY_RE : Rx :=
  altList
    [sseq [.wb,
       altList [litI "QTY", litI "QTY:", litI "QTY.", litI "QTY=",
         .seq (litI "QTY") (.seq wsRx (.star wsRx))],
       .star wsRx, .grp 1 digitsRx, .wb],
     sseq [.wb, .grp 2 digitsRx, chI 'x', .wb],
     sseq [.wb, chI 'x', .grp 3 digitsRx, .wb],
     sseq [.wb, .grp 4 digitsRx, .star wsRx,
       altList [litI "pcs", litI "unit", litI "units", litI "pcs."], .wb]]

/-- Pattern `_QTY_WORDS_RE = \b(qty|unit|units|pcs|pcs\.|piece|pieces|x\d+|\d+x)\b`
under `re.I`. -/
def QTY_WORDS_RE : Rx :=
  sseq [.wb,
    .grp 1 (altList [litI "qty", litI "unit", litI "units", litI "pcs",
      litI "pcs.", litI "piece", litI "pieces",
      .seq (chI 'x') digitsRx, .seq digitsRx (chI 'x')]),
    .wb]

/-- Pattern `_STOP_AFTER_RE = \b(total|grand\s*total|balance|remarks?|thank|cash\s*rm?)\b`
under `re.I`. -/
def STOP_AFTER_RE : Rx :=
  sseq [.wb,
    .grp 1 (altList [litI "total", kwPair "grand" "total", litI "balance",
      .seq (litI "remark") (.opt (chI 's')), litI "thank",
      sseq [litI "cash", .star wsRx, chI 'r', .opt (chI 'm')]]),
    .wb]

/-- Pattern `PRODUCT_CODE_RE = (?<![A-Z0-9])([A-Z]{2,}[A-Z0-9\-]{1,})(?![A-Z0-9])`
(case-sensitive). -/
def PRODUCT_CODE_RE : Rx :=
  sseq [.backNot isUpperNum,
    .grp 1 (sseq [.ch isUpperAZ, .ch isUpperAZ, .star (.ch isUpperAZ),
      .ch (fun c => isUpperAZ c || isPyDigit c || c == '-'),
      .star (.ch (fun c => isUpperAZ c || isPyDigit c || c == '-'))]),
    .peekNot isUpperNum]

/-- Pattern `_POSTCODE_RE = \b(\d{5})\b`. -/
def POSTCODE_RE : Rx := sseq [.wb, .grp 1 (.rep dRx 5 5), .wb]

/-!
## Monetary values in exact cents

`_to_float(s) = float(s.replace(",", ""))` is applied only to tokens of
the numeric patterns above, which have zero or exactly two decimal
digits; `centsOfToken` is that conversion in exact cents, and `fmtRM`
is the emission `f"RM..val..:.2f"` on such values.
-/

/-- Embeds `_to_float` on a numeric-pattern token, in cents. -/
def centsOfToken (t : List Char) : ℕ :=
  let t := t.filter (fun c => c ≠ ',')
  let ip := t.takeWhile (fun c => c ≠ '.')
  let fp := (t.dropWhile (fun c => c ≠ '.')).drop 1
  natOfDigits ip * 100 + natOfDigits ((fp ++ ['0', '0']).take 2)

/-- Decimal digits of a natural number. -/
def natDigitsL (n : ℕ) : List Char := (toString n).data

/-- A cents remainder as exactly two digits. -/
def pad2 (n : ℕ) : List Char := if n < 10 then '0' :: natDigitsL n else natDigitsL n

/-- The emission `f"RM..val..:.2f"` of a value of `cents` cents. -/
def fmtRM (cents : ℕ) : List Char :=
  ('R' :: 'M' :: natDigitsL (cents / 100)) ++ '.' :: pad2 (cents % 100)

/-- The plausibility bound `2.0 <= val <= 100000.0`, in cents. -/
def inBound (cents : ℕ) : Prop := 200 ≤ cents ∧ cents ≤ 10000000

instance (c : ℕ) : Decidable (inBound c) := by unfold inBound; infer_instance

/-!
## `_normalize_amount` (Numeric Normalizer)

`float(num)` is reached only on strings of digits and at most one dot
(see the branch analysis in the function).  CPython's string-to-float
conversion does not raise on overflow: any parsed value of magnitude
at least `2^1024 - 2^970` (the round-to-nearest-even cutoff above the
largest finite double) converts to `inf`, and `f"RM..inf..:.2f"` is
the non-canonical string `RMinf`.  `pyFloat` models this exactly: it
returns `none` exactly when `float` raises `ValueError`, the `inf`
marker exactly when the parsed value reaches the overflow cutoff, and
otherwise the exact finite value as a numerator/denominator fraction.
The final `f"RM..:.2f"` formatting of a finite parse is embedded as
round-half-even to cents of the exact value; its digits agree with the
binary-double formatting of CPython on every value with at most two
decimal digits below `2^53` (in particular on all values reachable in
the claims below), and its `RM`-digits-dot-two-digits shape agrees on
every finite value.
-/

/-- Result of Python `float` on a digit/dot string: the exact finite
value as a numerator/denominator pair (the denominator a power of
ten), or the overflow value `inf`. -/
inductive PyFloatVal where
  | finite (num den : ℕ) : PyFloatVal
  | inf : PyFloatVal
deriving DecidableEq

/-- The smallest decimal magnitude whose round-to-nearest-even double
conversion overflows to `inf`: `2^1024 - 2^970`. -/
def DBL_OVERFLOW_NUM : ℕ := 2 ^ 1024 - 2 ^ 970

/-- Python `float` on the digit/dot strings `_normalize_amount` builds:
`none` exactly when `float` raises `ValueError`, `inf` exactly when
the value reaches the double-overflow cutoff (CPython's string
conversion overflows to `inf` without raising), else the exact finite
value. -/
def pyFloat (s : List Char) : Option PyFloatVal :=
  if s ≠ [] ∧ s.all (fun c => isPyDigit c || c == '.') ∧ s.count '.' ≤ 1 ∧ s.any isPyDigit then
    let ip := s.takeWhile (fun c => c ≠ '.')
    let fp := (s.dropWhile (fun c => c ≠ '.')).drop 1
    let num := natOfDigits ip * 10 ^ fp.length + natOfDigits fp
    let den := 10 ^ fp.length
    if DBL_OVERFLOW_NUM * den ≤ num then some .inf else some (.finite num den)
  else none

/-- Round the nonnegative value `num / den` to cents, ties to even. -/
def roundHalfEvenCents (num den : ℕ) : ℕ :=
  let t := 100 * num
  let n := t / den
  let r := t % den
  if 2 * r < den then n else if den < 2 * r then n + 1 else if n % 2 = 0 then n else n + 1

/-- Embeds `_normalize_amount`: strip everything but digits and separators,
disambiguate decimal vs. thousands separator by the last
separator-delimited group, parse, and emit `RM` + two decimals. -/
def _normalize_amount (val : List Char) : Option (List Char) :=
  let raw := val.filter (fun c => isPyDigit c || c == '.' || c == ',')
  if raw = [] then none
  else
    let num :=
      if raw.count '.' ≥ 1 ∧ isdigitL (afterLast '.' raw) then
        raw.filter (fun c => c ≠ ',')
      else if raw.count ',' ≥ 1 ∧ isdigitL (afterLast ',' raw) then
        (raw.filter (fun c => c ≠ '.')).map (fun c => if c == ',' then '.' else c)
      else raw.filter (fun c => c ≠ ',')
    match pyFloat num with
    | some (.finite n d) => some (fmtRM (roundHalfEvenCents n d))
    | some .inf => some (S "RMinf")
    | none => none

/-!
## Store name (`_match_known_store`, `extract_store_name`)
-/

/-- Embeds `STORE_HINTS` of `parsers.py`, verbatim. -/
def STORE_HINTS : List (List Char) :=
  [S "Khind Customer Service SDN BHD", S "AEON BIG", S "Jaya Superstore", S "HomePro",
   S "XingLee Electrical & HIFI Central SDN BHD", S "AEON Big", S "SK Hardware",
   S "SK SERIES ENTERPRISE", S "JAYA GROCER", S "SNF ONLINE (M) SDN BHD", S "Kemudi Timur",
   S "ECONSAVE CASH & CARRY (FH) SDN BHD", S "SENHENG", S "HARVEY NORMAN",
   S "Seruay Evergreen SDN BHD", S "DYNAPOWER ENTERPRISE",
   S "SENG HUAT ELECTRICAL & HOME APPLIANCES SDN BHD", S "SURIA JERAI ELECTRICAL SDN BHD",
   S "Diva Lighting", S "Shopee Online", S "LSS HYPER ELECTRICAL SDN BHD",
   S "IKA Houseware Malaysia SDN BHD", S "YING MIEW HOLDINGS",
   S "SYARIKAT LETRIK LIM & ONG SDN BHD", S "Jaya",
   S "KHIND", S "SDN BHD", S "ELECTRICAL", S "SUPERMARKET", S "HYPER", S "STORE", S "LIGHTING"]

/-- Embeds `_contains_store_hint`: a raw hint occurs in the upper-cased text
(hints containing lower-case letters therefore never fire). -/
def _contains_store_hint (text : List Char) : Bool :=
  STORE_HINTS.any (fun h => containsL h (upperL text))

/-- The character class `[\s\W_]` of `_norm`. -/
def normClass (c : Char) : Bool := isPySpace c || !isWordChar c || c == '_'

/-- Replace each run of `[\s\W_]` characters by one space
(`re.sub(r"[\s\W_]+", " ", s)`). -/
def collapseRuns : List Char → Bool → List Char
  | [], _ => []
  | c :: t, inRun =>
    if normClass c then
      if inRun then collapseRuns t true else ' ' :: collapseRuns t true
    else c :: collapseRuns t false

/-- Embeds `_norm`: upper-case, collapse separator runs to single spaces, strip. -/
def _norm (s : List Char) : List Char := stripL (collapseRuns (upperL s) false)

/-- Embeds `PREFERRED_STORE_HINTS`: the curated module `store_hints_w4` is not
in this repository, so the import probes fail and the global is `None`. -/
def PREFERRED_STORE_HINTS : Option (List (List Char)) := none

/-- Embeds `_match_known_store`: curated hints, then generic hints, then
all-caps lines, then the first nonempty line — each scanning the top
12 lines and returning the first line satisfying the stage. -/
def _match_known_store (lines : List (List Char)) (preferred_stores : Option (List (List Char))) :
    Option (List Char × List Char) :=
  let top := lines.take 12
  let preferred_stores :=
    match preferred_stores, PREFERRED_STORE_HINTS with
    | none, some g => if g ≠ [] then some g else none
    | p, _ => p
  let stage1 : Option (List Char × List Char) :=
    match preferred_stores with
    | some ps =>
      if ps = [] then none
      else
        let pref_up := ps.map upperL
        (top.find? (fun ln => pref_up.any (fun s => containsL s (upperL ln)))).map
          (fun ln => (stripL ln, _norm ln))
    | none => none
  stage1 <|>
    (top.find? _contains_store_hint).map (fun ln => (stripL ln, _norm ln)) <|>
    (top.find? (fun ln => !(stripL ln).isEmpty && upperL (stripL ln) == stripL ln)).map
      (fun ln => (stripL ln, _norm ln)) <|>
    (top.find? (fun ln => !(stripL ln).isEmpty)).map (fun ln => (stripL ln, _norm ln))

/-- Embeds `extract_store_name`. -/
def extract_store_name (lines : List (List Char)) (preferred_stores : Option (List (List Char))) :
    Option (List Char) :=
  (_match_known_store lines preferred_stores).map (fun m => m.1)

/-!
## Store location (`_extract_city_state_from_line`, `extract_store_location`)
-/

/-- Embeds `MALAYSIAN_STATES` of `parsers.py`, verbatim. -/
def MALAYSIAN_STATES : List (List Char) :=
  [S "Johor", S "Kedah", S "Kelantan", S "Malacca", S "Melaka", S "Negeri Sembilan",
   S "Pahang", S "Penang", S "Pulau Pinang", S "Perak", S "Perlis", S "Sabah",
   S "Sarawak", S "Selangor", S "Terengganu", S "Kuala Lumpur", S "WP Kuala Lumpur",
   S "Labuan", S "Putrajaya"]

/-- Embeds `_STATE_SET = (s.lower(), s) for s in MALAYSIAN_STATES`, in
insertion order (all lower-cased names are distinct). -/
def STATE_SET : List (List Char × List Char) :=
  MALAYSIAN_STATES.map (fun s => (lowerL s, s))

/-- Python `str.title()` (ASCII): upper-case each letter that starts an
alphabetic run, lower-case the rest. -/
def titleGo : List Char → Bool → List Char
  | [], _ => []
  | c :: t, prevAlpha =>
    (if isAsciiAlpha c then (if prevAlpha then c.toLower else c.toUpper) else c) ::
      titleGo t (isAsciiAlpha c)

/-- Python `str.title()`. -/
def titleL (s : List Char) : List Char := titleGo s false

/-- Embeds `re.split(r"[,;|-]", txt)`: split at each delimiter character,
keeping empty pieces. -/
def splitDelims (s : List Char) : List (List Char) :=
  s.foldr
    (fun c acc =>
      if c == ',' || c == ';' || c == '|' || c == '-' then [] :: acc
      else
        match acc with
        | h :: t => (c :: h) :: t
        | [] => [[c]])
    [[]]

/-- The whitespace-normalised text of a line:
`" ".join(line.replace("|", ",").split())`. -/
def locTxt (line : List Char) : List Char :=
  List.intercalate [' '] (splitWs (line.map (fun c => if c == '|' then ',' else c)))

/-- Embeds `re.sub(r"[^A-Za-z\s]", " ", s)`. -/
def keepAlphaSpace (s : List Char) : List Char :=
  s.map (fun c => if isAsciiAlpha c || isPySpace c then c else ' ')

/-- Embeds `_extract_city_state_from_line`: find a state name (case-insensitive
substring), then derive a city from a postcode-anchored prefix or from
the delimiter segment before the state, else return the bare state. -/
def _extract_city_state_from_line (line : List Char) : Option (List Char) :=
  let txt := locTxt line
  let low := lowerL txt
  match STATE_SET.find? (fun kv => containsL kv.1 low) with
  | none => none
  | some (state_key, state_norm) =>
    let fromPostcode : Option (List Char) :=
      match (rxSearch POSTCODE_RE txt).bind (fun m => capGet m.2.2 1) with
      | some (b, e) =>
        let pc := sl txt b e
        let left_right := match splitOnce state_key low with
          | some p => p.1
          | none => low
        let after_pc := match splitOnce pc left_right with
          | some p => p.2
          | none => left_right
        let city_tokens := (splitWs (keepAlphaSpace after_pc)).filter (fun t => 2 ≤ t.length)
        if city_tokens = [] then none
        else
          some (titleL (stripL (List.intercalate [' '] city_tokens)) ++ S ", " ++ state_norm)
      | none => none
    match fromPostcode with
    | some r => some r
    | none =>
      let parts := ((splitDelims txt).map stripL).filter (fun p => p ≠ [])
      match parts.enum.find? (fun iseg => containsL state_key (lowerL iseg.2)) with
      | some (i, _) =>
        if 0 < i then
          let city := titleL (stripL (keepAlphaSpace (parts.getD (i - 1) [])))
          if city ≠ [] then some (city ++ S ", " ++ state_norm) else some state_norm
        else some state_norm
      | none => some state_norm

/-- Embeds `STORE_LOC_MAP`: the curated module `store_loc_map_w4` is not in
this repository, so the import probes fail and the global is `None`. -/
def STORE_LOC_MAP : Option (List (List Char × List Char)) := none

/-- Embeds `extract_store_location`: curated store-to-location map first (dead
in this repository, the map is `None`), then the first 20 lines and
then all lines in reverse through the per-line extractor; the
participant fallback city/state arguments are never consulted. -/
def extract_store_location (lines : List (List Char))
    (fallback_city fallback_state : Option (List Char)) : Option (List Char) :=
  let store_match := _match_known_store lines none
  let stage1 : Option (List Char) :=
    match store_match, STORE_LOC_MAP with
    | some (_, norm_key), some mp =>
      match mp.find? (fun kv => kv.1 == norm_key) with
      | some kv => some kv.2
      | none => (mp.find? (fun kv => !kv.1.isEmpty && containsL kv.1 norm_key)).map (fun kv => kv.2)
    | _, _ => none
  match stage1 with
  | some r => some r
  | none =>
    match (lines.take 20).findSome? _extract_city_state_from_line with
    | some r => some r
    | none => lines.reverse.findSome? _extract_city_state_from_line

/-!
## Target-item price (`_price_candidates` … `_khind_line_amount`)
-/

/-- Stable insertion of a candidate into a position-sorted list. -/
def insByPos (c : ℕ × ℕ × ℕ) : List (ℕ × ℕ × ℕ) → List (ℕ × ℕ × ℕ)
  | [] => [c]
  | d :: t => if d.1 ≤ c.1 then d :: insByPos c t else c :: d :: t

/-- Embeds `_price_candidates`: all monetary tokens of a line as
(position of the numeric part, value in cents, confidence score),
score 3 for currency-tagged, 2 for bare two-decimal tokens, sorted by
position (Python `hits.sort(key=pos)`, stable). -/
def _price_candidates (line : List Char) : List (ℕ × ℕ × ℕ) :=
  let hits := (rxFindAll PRICE_TOKEN_RE line).filterMap
    (fun m =>
      match capGet m.2.2 1 with
      | some _ => (capGet m.2.2 2).map (fun be => (be.1, centsOfToken (sl line be.1 be.2), 3))
      | none => (capGet m.2.2 3).map (fun be => (be.1, centsOfToken (sl line be.1 be.2), 2)))
  hits.foldl (fun acc c => insByPos c acc) []

/-- Embeds `_find_khind_rows`: the indexed lines whose upper-casing contains
the marker token `KHIND`. -/
def _find_khind_rows (lines : List (List Char)) : List (ℕ × List Char) :=
  lines.enum.filter (fun p => containsL (S "KHIND") (upperL p.2))

/-- Embeds `_looks_like_qty_context`: quantity/unit vocabulary within 10
characters of the span. -/
def _looks_like_qty_context (line : List Char) (span_start span_end : ℕ) : Bool :=
  (rxSearch QTY_WORDS_RE (sl line (span_start - 10) (min line.length (span_end + 10)))).isSome

/-- The filter applied to one candidate in `_choose_rightmost_best`:
the plausibility bound and the quantity-context rejection (the source
passes `pos + 1` as the span end). -/
def acceptCand (line : List Char) (c : ℕ × ℕ × ℕ) : Bool :=
  decide (inBound c.2.1) && !_looks_like_qty_context line c.1 (c.1 + 1)

/-- Embeds `_choose_rightmost_best`: among the highest-confidence candidates,
the rightmost acceptable one; if all of those are rejected, the
rightmost acceptable candidate of any confidence; else `none`. -/
def _choose_rightmost_best (cands : List (ℕ × ℕ × ℕ)) (line : List Char) : Option ℕ :=
  match cands with
  | [] => none
  | _ :: _ =>
    let best := (cands.map (fun c => c.2.2)).foldl Nat.max 0
    match (cands.filter (fun c => c.2.2 == best)).reverse.find? (acceptCand line) with
    | some c => some c.2.1
    | none => (cands.reverse.find? (acceptCand line)).map (fun c => c.2.1)

/-- Does a line match `_STOP_AFTER_RE`? -/
def stopHit (ln : List Char) : Bool := (rxSearch STOP_AFTER_RE ln).isSome

/-- The forward window of a marker row: up to `LOOKAHEAD = 4` lines
after the row, truncated at the first stop line. -/
def windowIdxs (lines : List (List Char)) (idx : ℕ) : List ℕ :=
  (List.range' idx (min lines.length (idx + 5) - idx)).takeWhile
    (fun j => !stopHit (lines.getD j []))

/-- Embeds `_khind_line_amount`: for each marker row, scan its window bottom-up
and return the first chosen price, formatted. -/
def _khind_line_amount (lines : List (List Char)) : Option (List Char) :=
  (_find_khind_rows lines).findSome? (fun row =>
    ((windowIdxs lines row.1).reverse).findSome? (fun j =>
      (_choose_rightmost_best (_price_candidates (lines.getD j [])) (lines.getD j [])).map fmtRM))

/-!
## Products (`_match_preferred_items`, `extract_products`)
-/

/-- The quantity parsed from a line: the first participating group of
the first `QTY_RE` match (all groups are digit strings), default 1. -/
def qtyOf (ln : List Char) : ℕ :=
  match rxSearch QTY_RE ln with
  | some m =>
    match capGet m.2.2 1 with
    | some be => natOfDigits (sl ln be.1 be.2)
    | none =>
      match capGet m.2.2 2 with
      | some be => natOfDigits (sl ln be.1 be.2)
      | none =>
        match capGet m.2.2 3 with
        | some be => natOfDigits (sl ln be.1 be.2)
        | none =>
          match capGet m.2.2 4 with
          | some be => natOfDigits (sl ln be.1 be.2)
          | none => 1
  | none => 1

/-- One line of the `_match_preferred_items` scan: try each curated
hint in order; on a fresh (key, qty) match append and, at the cap,
signal the early return. -/
def mpiLine (ln : List Char) (maxI : ℕ) :
    List (List Char × List Char) → List (List Char × ℕ) → List (List Char × ℕ) →
    List (List Char × ℕ) × List (List Char × ℕ) × Bool
  | [], out, seen => (out, seen, false)
  | (original, needle) :: rest, out, seen =>
    if containsL needle (upperL ln) then
      let qty := qtyOf ln
      let key := (lowerL (stripL original), qty)
      if seen.contains key then mpiLine ln maxI rest out seen
      else
        let out := out ++ [(stripL original, qty)]
        let seen := key :: seen
        if maxI ≤ out.length then (out, seen, true)
        else mpiLine ln maxI rest out seen
    else mpiLine ln maxI rest out seen

/-- The outer loop of `_match_preferred_items` over all lines. -/
def mpiGo (prefUp : List (List Char × List Char)) (maxI : ℕ) :
    List (List Char) → List (List Char × ℕ) → List (List Char × ℕ) → List (List Char × ℕ)
  | [], out, _ => out
  | ln :: rest, out, seen =>
    match mpiLine ln maxI prefUp out seen with
    | (out2, seen2, false) => mpiGo prefUp maxI rest out2 seen2
    | (out2, _, true) => out2

/-- Embeds `_match_preferred_items`: curated product hints, de-duplicated by
(case-folded stripped hint, quantity), capped at `max_items`. -/
def _match_preferred_items (lines : List (List Char)) (preferred_items : List (List Char))
    (max_items : ℕ) : List (List Char × ℕ) :=
  let pref_up := (preferred_items.filter (fun p => stripL p ≠ [])).map (fun p => (p, upperL p))
  if pref_up = [] then [] else mpiGo pref_up max_items lines [] []

/-- The tracked-marker stage of `extract_products`: append every
marker row, early-returning at the cap. -/
def productsStage2 (maxI : ℕ) :
    List (ℕ × List Char) → List (List Char × ℕ) → List (List Char × ℕ) × Bool
  | [], items => (items, false)
  | (_, ln) :: rest, items =>
    let items := items ++ [(stripL ln, qtyOf ln)]
    if maxI ≤ items.length then (items, true) else productsStage2 maxI rest items

/-- The generic product-code stage of `extract_products`. -/
def productsStage3 (maxI : ℕ) :
    List (List Char) → List (List Char × ℕ) → List (List Char × ℕ)
  | [], items => items
  | ln :: rest, items =>
    if maxI ≤ items.length then items
    else
      match (rxSearch PRODUCT_CODE_RE ln).bind (fun m => capGet m.2.2 1) with
      | none => productsStage3 maxI rest items
      | some be => productsStage3 maxI rest (items ++ [(stripDash (sl ln be.1 be.2), qtyOf ln)])

/-- Embeds `PREFERRED_PRODUCT_HINTS`: the curated modules are not in this
repository, so the global is `None`. -/
def PREFERRED_PRODUCT_HINTS : Option (List (List Char)) := none

/-- Embeds `extract_products`: curated hints, then marker rows, then generic
product codes, with the source's cap checks at their exact points. -/
def extract_products (lines : List (List Char)) (max_items : ℕ)
    (preferred_items : Option (List (List Char))) : List (List Char × ℕ) :=
  let preferred_items :=
    match preferred_items, PREFERRED_PRODUCT_HINTS with
    | none, some g => if g ≠ [] then some g else none
    | p, _ => p
  let afterStage1 : List (List Char × ℕ) ⊕ List (List Char × ℕ) :=
    match preferred_items with
    | some ps =>
      if ps = [] then .inr []
      else
        let items := ([] : List (List Char × ℕ)) ++ _match_preferred_items lines ps max_items
        if max_items ≤ items.length then .inl items else .inr items
    | none => .inr []
  match afterStage1 with
  | .inl r => r
  | .inr items =>
    match productsStage2 max_items (_find_khind_rows lines) items with
    | (r, true) => r
    | (items2, false) => productsStage3 max_items lines items2

/-!
## Amount (`extract_amount_spent`)
-/

/-- The keyword match of one line:
`RE_KW_LEFT.search(ln) or RE_KW_RIGHT.search(ln)`, group 1 in cents. -/
def kwMatchCents (ln : List Char) : Option ℕ :=
  match rxSearch RE_KW_LEFT ln with
  | some m => (capGet m.2.2 1).map (fun be => centsOfToken (sl ln be.1 be.2))
  | none =>
    match rxSearch RE_KW_RIGHT ln with
    | some m => (capGet m.2.2 1).map (fun be => centsOfToken (sl ln be.1 be.2))
    | none => none

/-- The keyword-anchored totals stage: the first line whose keyword
match is in bound (an out-of-bound match just moves to the next line). -/
def kwStage (lines : List (List Char)) : Option (List Char) :=
  lines.findSome? (fun ln =>
    match kwMatchCents ln with
    | some v => if inBound v then some (fmtRM v) else none
    | none => none)

/-- All currency-tagged numbers of the receipt, in cents. -/
def ccyCands (lines : List (List Char)) : List ℕ :=
  (lines.map (fun ln =>
    (rxFindAll RE_ANY_CCY ln).filterMap (fun m =>
      (capGet m.2.2 1).map (fun be => centsOfToken (sl ln be.1 be.2))))).flatten

/-- All bare numbers of the receipt, in cents. -/
def bareCands (lines : List (List Char)) : List ℕ :=
  (lines.map (fun ln =>
    (rxFindAll RE_ANY_NUM ln).filterMap (fun m =>
      (capGet m.2.2 1).map (fun be => centsOfToken (sl ln be.1 be.2))))).flatten

/-- Python `max` over the candidate list (nonempty when used). -/
def maxCents (l : List ℕ) : ℕ := l.foldl Nat.max 0

/-- The currency-tagged stage: the maximum candidate if in bound, else
nothing (the bound is tested on the maximum only). -/
def ccyStage (lines : List (List Char)) : Option (List Char) :=
  let cands := ccyCands lines
  if cands = [] then none
  else if inBound (maxCents cands) then some (fmtRM (maxCents cands)) else none

/-- The bare-number stage, same shape as the currency-tagged stage. -/
def bareStage (lines : List (List Char)) : Option (List Char) :=
  let cands := bareCands lines
  if cands = [] then none
  else if inBound (maxCents cands) then some (fmtRM (maxCents cands)) else none

/-- Embeds `extract_amount_spent`: marker-row price first, then keyword
totals, then maximum currency-tagged number, then maximum bare number
(`if amt:` truthiness coincides with `isSome` because every emitted
string is nonempty). -/
def extract_amount_spent (lines : List (List Char)) : Option (List Char) :=
  if lines = [] then none
  else
    match _khind_line_amount lines with
    | some amt => some amt
    | none =>
      match kwStage lines with
      | some r => some r
      | none =>
        match ccyStage lines with
        | some r => some r
        | none => bareStage lines

/-!
## Validity (`decide_validity` and the verdict branch of `main.process`)
-/

/-- Python truthiness of an `Optional[str]`. -/
def truthyStr : Option (List Char) → Bool
  | none => false
  | some s => !s.isEmpty

/-- Embeds `decide_validity` of `parsers.py`. -/
def decide_validity (amount_spent : Option (List Char)) (products : List (List Char × ℕ))
    (image_missing : Bool) : List Char × List Char :=
  if image_missing then (S "INVALID", S "Image missing")
  else if truthyStr amount_spent then (S "VALID", S "")
  else if !products.isEmpty then (S "INVALID", S "No total found")
  else (S "INVALID", S "No total found")

/-- The per-row verdict of `main.process` (its lines 132–138): image
missing, then OCR failure, then `decide_validity` with
`image_missing=False`. -/
def rowValidity (image_missing ocr_error : Bool) (amount_spent : Option (List Char))
    (products : List (List Char × ℕ)) : List Char × List Char :=
  if image_missing then (S "INVALID", S "Image missing")
  else if ocr_error then (S "INVALID", S "OCR failed")
  else decide_validity amount_spent products false

/-!
## Shared lemmas
-/

/-- A successful `findSome?` comes from some list element. -/
theorem findSome?_mem {α β : Type} {l : List α} {f : α → Option β} {b : β}
    (h : l.findSome? f = some b) : ∃ a ∈ l, f a = some b := by
  induction l with
  | nil => simp [List.findSome?] at h
  | cons x t ih =>
    rw [List.findSome?_cons] at h
    cases hx : f x with
    | some v => rw [hx] at h; exact ⟨x, by simp, by simp [hx, h.symm]⟩
    | none => rw [hx] at h; obtain ⟨a, ha, hfa⟩ := ih h; exact ⟨a, by simp [ha], hfa⟩

/-- A `findSome?` over elements that all fail is `none`. -/
theorem findSome?_none {α β : Type} {l : List α} {f : α → Option β}
    (h : ∀ a ∈ l, f a = none) : l.findSome? f = none := by
  induction l with
  | nil => simp [List.findSome?]
  | cons x t ih =>
    rw [List.findSome?_cons, h x (by simp)]
    exact ih (fun a ha => h a (by simp [ha]))

/-- An accepted candidate is in bound. -/
theorem inBound_of_acceptCand {line : List Char} {c : ℕ × ℕ × ℕ}
    (h : acceptCand line c = true) : inBound c.2.1 := by
  unfold acceptCand at h
  rw [Bool.and_eq_true] at h
  exact of_decide_eq_true h.1

/-- Whatever `_choose_rightmost_best` returns is in bound. -/
theorem choose_inBound {cands : List (ℕ × ℕ × ℕ)} {line : List Char} {v : ℕ}
    (h : _choose_rightmost_best cands line = some v) : inBound v := by
  unfold _choose_rightmost_best at h
  cases cands with
  | nil => simp at h
  | cons a t =>
    simp only at h
    cases h1 : ((a :: t).filter
        (fun c => c.2.2 == ((a :: t).map (fun c => c.2.2)).foldl Nat.max 0)).reverse.find?
          (acceptCand line) with
    | some c =>
      rw [h1] at h
      have hc := List.find?_some h1
      cases h
      exact inBound_of_acceptCand hc
    | none =>
      rw [h1] at h
      cases h2 : (a :: t).reverse.find? (acceptCand line) with
      | some c =>
        rw [h2] at h
        have hc := List.find?_some h2
        cases h
        exact inBound_of_acceptCand hc
      | none => rw [h2] at h; simp at h

/-- Whatever `_khind_line_amount` returns is a bounded formatted value. -/
theorem khind_shape {lines : List (List Char)} {out : List Char}
    (h : _khind_line_amount lines = some out) : ∃ c, inBound c ∧ out = fmtRM c := by
  unfold _khind_line_amount at h
  obtain ⟨row, _, hrow⟩ := findSome?_mem h
  obtain ⟨j, _, hj⟩ := findSome?_mem hrow
  cases hch : _choose_rightmost_best (_price_candidates (lines.getD j []))
      (lines.getD j []) with
  | some v =>
    rw [hch] at hj
    cases hj
    exact ⟨v, choose_inBound hch, rfl⟩
  | none => rw [hch] at hj; simp at hj

/-- Whatever the keyword stage returns is a bounded formatted value. -/
theorem kwStage_shape {lines : List (List Char)} {out : List Char}
    (h : kwStage lines = some out) : ∃ c, inBound c ∧ out = fmtRM c := by
  unfold kwStage at h
  obtain ⟨ln, _, hln⟩ := findSome?_mem h
  split at hln
  next v _ =>
    split at hln
    next hb => cases hln; exact ⟨v, hb, rfl⟩
    next => simp at hln
  next => simp at hln

/-- Whatever the currency-tagged stage returns is a bounded formatted value. -/
theorem ccyStage_shape {lines : List (List Char)} {out : List Char}
    (h : ccyStage lines = some out) : ∃ c, inBound c ∧ out = fmtRM c := by
  unfold ccyStage at h
  by_cases h0 : ccyCands lines = []
  · rw [if_pos h0] at h; simp at h
  · rw [if_neg h0] at h
    by_cases hb : inBound (maxCents (ccyCands lines))
    · rw [if_pos hb] at h; cases h; exact ⟨_, hb, rfl⟩
    · rw [if_neg hb] at h; simp at h

/-- Whatever the bare-number stage returns is a bounded formatted value. -/
theorem bareStage_shape {lines : List (List Char)} {out : List Char}
    (h : bareStage lines = some out) : ∃ c, inBound c ∧ out = fmtRM c := by
  unfold bareStage at h
  by_cases h0 : bareCands lines = []
  · rw [if_pos h0] at h; simp at h
  · rw [if_neg h0] at h
    by_cases hb : inBound (maxCents (bareCands lines))
    · rw [if_pos hb] at h; cases h; exact ⟨_, hb, rfl⟩
    · rw [if_neg hb] at h; simp at h

/-!
## The claims
-/

/-- C1: The Validity Decider (the verdict branch of `main.process`
composed with `decide_validity`) is a pure function of (image-missing,
OCR-failure, amount, products) with first-match-wins precedence: image
missing yields (INVALID, "Image missing") even when an amount was
resolved; else OCR failure yields (INVALID, "OCR failed"); else a
non-empty amount yields (VALID, ""); otherwise (INVALID, "No total
found") regardless of the products — and a VALID verdict never carries
a non-empty reason. -/
theorem validity_decider_precedence (im oc : Bool) (amt : Option (List Char))
    (prods : List (List Char × ℕ)) :
    rowValidity im oc amt prods =
      (if im then (S "INVALID", S "Image missing")
       else if oc then (S "INVALID", S "OCR failed")
       else if truthyStr amt then (S "VALID", S "")
       else (S "INVALID", S "No total found")) ∧
    ((rowValidity im oc amt prods).1 = S "VALID" → (rowValidity im oc amt prods).2 = S "") := by
  have hmain : rowValidity im oc amt prods =
      (if im then (S "INVALID", S "Image missing")
       else if oc then (S "INVALID", S "OCR failed")
       else if truthyStr amt then (S "VALID", S "")
       else (S "INVALID", S "No total found")) := by
    cases im <;> cases oc <;> cases htr : truthyStr amt <;>
      simp [rowValidity, decide_validity, htr, ite_self]
  refine ⟨hmain, ?_⟩
  rw [hmain]
  cases im <;> cases oc <;> cases htr : truthyStr amt <;> simp <;> decide

/-- Witness for C1: with no external failure and a resolved amount the
verdict is VALID and the reason is empty. -/
theorem validity_decider_precedence_witness :
    (rowValidity false false (some (S "RM10.00")) []).2 = S "" :=
  (validity_decider_precedence false false (some (S "RM10.00")) []).2 (by decide)

/-- C2: every non-`none` result of the Amount Resolver
(`extract_amount_spent`) and of the Target-Item Price Resolver
(`_khind_line_amount`) is `RM` + the value with exactly two decimal
digits (`fmtRM`), for a value within [2.00, 100000.00]. -/
theorem amount_format_and_bound (lines : List (List Char)) :
    (∀ out, _khind_line_amount lines = some out → ∃ c, inBound c ∧ out = fmtRM c) ∧
    (∀ out, extract_amount_spent lines = some out → ∃ c, inBound c ∧ out = fmtRM c) := by
  refine ⟨fun out h => khind_shape h, fun out h => ?_⟩
  unfold extract_amount_spent at h
  by_cases h0 : lines = []
  · rw [if_pos h0] at h; simp at h
  · rw [if_neg h0] at h
    cases h1 : _khind_line_amount lines with
    | some a => rw [h1] at h; cases h; exact khind_shape h1
    | none =>
      rw [h1] at h
      cases h2 : kwStage lines with
      | some a => rw [h2] at h; cases h; exact kwStage_shape h2
      | none =>
        rw [h2] at h
        cases h3 : ccyStage lines with
        | some a => rw [h3] at h; cases h; exact ccyStage_shape h3
        | none => rw [h3] at h; exact bareStage_shape h

/-- Witness for C2: a concrete receipt whose resolved amount is the
bounded two-decimal rendering of 15000 cents. -/
theorem amount_format_and_bound_witness :
    ∃ c, inBound c ∧ S "RM150.00" = fmtRM c :=
  (amount_format_and_bound [S "Total RM150.00"]).2 (S "RM150.00") rfl

/-- C3 counterexample: with no marker row and no keyword total, an
in-bound currency-tagged number (RM50.00) is present, yet the resolver
returns `none` because the bound is tested on the maximum candidate
(RM200000.00) only — out-of-bound values are not discarded
individually. -/
theorem amount_ccy_max_counterexample :
    extract_amount_spent [S "RM50.00", S "RM200000.00"] = none ∧
    _khind_line_amount [S "RM50.00", S "RM200000.00"] = none ∧
    kwStage [S "RM50.00", S "RM200000.00"] = none ∧
    ccyCands [S "RM50.00", S "RM200000.00"] = [5000, 20000000] ∧
    inBound 5000 ∧ ¬ inBound 20000000 :=
  ⟨rfl, rfl, rfl, rfl, by decide, by decide⟩

/-- C3 amended: when the target-item and keyword stages produce
nothing and currency-tagged numbers exist, the bound is applied to the
maximum currency-tagged number only: if that maximum is within
[2.00, 100000.00] it is returned; if it is out of bound the whole
stage yields nothing — even when a smaller in-bound currency-tagged
number exists — and the cascade continues to the bare-number stage. -/
theorem amount_ccy_stage_max_only (lines : List (List Char))
    (h0 : lines ≠ [])
    (h1 : _khind_line_amount lines = none)
    (h2 : kwStage lines = none)
    (h3 : ccyCands lines ≠ []) :
    (inBound (maxCents (ccyCands lines)) →
      extract_amount_spent lines = some (fmtRM (maxCents (ccyCands lines)))) ∧
    (¬ inBound (maxCents (ccyCands lines)) →
      extract_amount_spent lines = bareStage lines) := by
  have hstage : ∀ r, ccyStage lines = r → extract_amount_spent lines =
      (match r with | some v => some v | none => bareStage lines) := by
    intro r hr
    unfold extract_amount_spent
    rw [if_neg h0, h1, h2, hr]
  constructor
  · intro hb
    have hc : ccyStage lines = some (fmtRM (maxCents (ccyCands lines))) := by
      unfold ccyStage
      rw [if_neg h3, if_pos hb]
    exact hstage _ hc
  · intro hb
    have hc : ccyStage lines = none := by
      unfold ccyStage
      rw [if_neg h3, if_neg hb]
    exact hstage _ hc

/-- Witness for C3 (amended): a receipt whose only currency-tagged
number is in bound resolves to exactly that maximum. -/
theorem amount_ccy_stage_max_only_witness :
    extract_amount_spent [S "RM50.00"] = some (fmtRM 5000) :=
  (amount_ccy_stage_max_only [S "RM50.00"] (by decide) rfl rfl (by decide)).1 (by decide)

/-- C4: on `["KHIND Blender", "Total RM150.00", "RM45.00"]` the marker
window truncates at the "Total" stop line, so RM45.00 is never used
(`_khind_line_amount` is `none`), and the resolver falls through to
the totals-keyword stage, returning "RM150.00". -/
theorem stop_window_truncates :
    _khind_line_amount [S "KHIND Blender", S "Total RM150.00", S "RM45.00"] = none ∧
    windowIdxs [S "KHIND Blender", S "Total RM150.00", S "RM45.00"] 0 = [0] ∧
    kwStage [S "KHIND Blender", S "Total RM150.00", S "RM45.00"] = some (S "RM150.00") ∧
    extract_amount_spent [S "KHIND Blender", S "Total RM150.00", S "RM45.00"] =
      some (S "RM150.00") :=
  ⟨rfl, rfl, rfl, rfl⟩

/-- C5 counterexample: in both the curated-hint and the generic-hint
stage, `_match_known_store` returns the first matching line in scan
order, not the longest matching line — here a longer matching line
follows the returned one in both stages. -/
theorem store_longest_counterexample :
    _match_known_store [S "AEON BIG", S "AEON BIG SUPERSTORE KUALA LUMPUR"]
        (some [S "AEON BIG"]) = some (S "AEON BIG", S "AEON BIG") ∧
    containsL (upperL (S "AEON BIG")) (upperL (S "AEON BIG SUPERSTORE KUALA LUMPUR")) = true ∧
    (S "AEON BIG").length < (S "AEON BIG SUPERSTORE KUALA LUMPUR").length ∧
    _match_known_store [S "SHOP KHIND", S "KHIND ELECTRICAL SDN BHD MALAYSIA"] none =
      some (S "SHOP KHIND", S "SHOP KHIND") ∧
    _contains_store_hint (S "KHIND ELECTRICAL SDN BHD MALAYSIA") = true ∧
    (S "SHOP KHIND").length < (S "KHIND ELECTRICAL SDN BHD MALAYSIA").length :=
  ⟨rfl, by decide, by decide, rfl, by decide, by decide⟩

/-- C5 amended: among the scanned top lines that contain a hint
substring, both the curated-hint stage and the generic-hint stage
return the FIRST matching line in top-to-bottom order (with its
normalized key), not the longest one. -/
theorem store_first_match_wins :
    (∀ (lines ps : List (List Char)) (ln : List Char), ps ≠ [] →
      (lines.take 12).find?
          (fun l => (ps.map upperL).any (fun s => containsL s (upperL l))) = some ln →
      _match_known_store lines (some ps) = some (stripL ln, _norm ln)) ∧
    (∀ (lines : List (List Char)) (ln : List Char),
      (lines.take 12).find? _contains_store_hint = some ln →
      _match_known_store lines none = some (stripL ln, _norm ln)) := by
  constructor
  · intro lines ps ln hps hfind
    simp only [_match_known_store, PREFERRED_STORE_HINTS, if_neg hps]
    rw [hfind]
    simp only [Option.map_some', Option.some_orElse]
  · intro lines ln hfind
    simp only [_match_known_store, PREFERRED_STORE_HINTS]
    rw [hfind]
    simp only [Option.map_some', Option.some_orElse, Option.none_orElse]

/-- Witness for C5 (amended): both stages at concrete receipts where a
longer matching line follows the first match. -/
theorem store_first_match_wins_witness :
    _match_known_store [S "intro line", S "AEON BIG X", S "AEON BIG SUPERSTORE"]
        (some [S "AEON BIG"]) = some (S "AEON BIG X", S "AEON BIG X") ∧
    _match_known_store [S "SHOP KHIND", S "KHIND ELECTRICAL SDN BHD MALAYSIA"] none =
      some (S "SHOP KHIND", S "SHOP KHIND") :=
  ⟨store_first_match_wins.1 [S "intro line", S "AEON BIG X", S "AEON BIG SUPERSTORE"]
      [S "AEON BIG"] (S "AEON BIG X") (by decide) rfl,
   store_first_match_wins.2 [S "SHOP KHIND", S "KHIND ELECTRICAL SDN BHD MALAYSIA"]
      (S "SHOP KHIND") rfl⟩

/-- The inner curated-hints loop respects the cap. -/
theorem mpiLine_cap {ln : List Char} {maxI : ℕ}
    (prefUp : List (List Char × List Char)) (out seen : List (List Char × ℕ))
    (h : out.length < maxI) :
    (mpiLine ln maxI prefUp out seen).1.length ≤ maxI ∧
    ((mpiLine ln maxI prefUp out seen).2.2 = false →
      (mpiLine ln maxI prefUp out seen).1.length < maxI) := by
  induction prefUp generalizing out seen with
  | nil => exact ⟨Nat.le_of_lt h, fun _ => h⟩
  | cons p rest ih =>
    unfold mpiLine
    by_cases hc : containsL p.2 (upperL ln) = true
    · rw [if_pos hc]
      by_cases hs : (seen.contains (lowerL (stripL p.1), qtyOf ln)) = true
      · rw [if_pos hs]; exact ih out seen h
      · rw [if_neg hs]
        by_cases hm : maxI ≤ (out ++ [(stripL p.1, qtyOf ln)]).length
        · rw [if_pos hm]
          refine ⟨?_, fun hf => by simp at hf⟩
          simp only [List.length_append, List.length_cons, List.length_nil]
          omega
        · rw [if_neg hm]
          exact ih _ _ (Nat.lt_of_not_le hm)
    · rw [if_neg hc]; exact ih out seen h

/-- The outer curated-hints loop respects the cap. -/
theorem mpiGo_cap {prefUp : List (List Char × List Char)} {maxI : ℕ}
    (ls : List (List Char)) (out seen : List (List Char × ℕ))
    (h : out.length < maxI) : (mpiGo prefUp maxI ls out seen).length ≤ maxI := by
  induction ls generalizing out seen with
  | nil => exact Nat.le_of_lt h
  | cons ln rest ih =>
    unfold mpiGo
    have hl := @mpiLine_cap ln maxI prefUp out seen h
    cases hline : mpiLine ln maxI prefUp out seen with
    | mk out2 rest2 =>
      cases rest2 with
      | mk seen2 flag =>
        rw [hline] at hl
        cases flag with
        | true => exact hl.1
        | false => exact ih out2 seen2 (hl.2 rfl)

/-- The curated-hints stage `_match_preferred_items` respects the cap. -/
theorem mpi_cap (lines ps : List (List Char)) {maxI : ℕ} (h : 0 < maxI) :
    (_match_preferred_items lines ps maxI).length ≤ maxI := by
  simp only [_match_preferred_items]
  split
  · simp
  · exact mpiGo_cap lines [] [] (by simpa using h)

/-- The marker-row stage respects the cap. -/
theorem productsStage2_cap {maxI : ℕ} (rows : List (ℕ × List Char))
    (items : List (List Char × ℕ)) (h : items.length < maxI) :
    (productsStage2 maxI rows items).1.length ≤ maxI ∧
    ((productsStage2 maxI rows items).2 = false →
      (productsStage2 maxI rows items).1.length < maxI) := by
  induction rows generalizing items with
  | nil => exact ⟨Nat.le_of_lt h, fun _ => h⟩
  | cons r rest ih =>
    unfold productsStage2
    by_cases hm : maxI ≤ (items ++ [(stripL r.2, qtyOf r.2)]).length
    · rw [if_pos hm]
      refine ⟨?_, fun hf => by simp at hf⟩
      simp only [List.length_append, List.length_cons, List.length_nil]
      omega
    · rw [if_neg hm]
      exact ih _ (Nat.lt_of_not_le hm)

/-- The product-code stage respects the cap. -/
theorem productsStage3_cap {maxI : ℕ} (ls : List (List Char))
    (items : List (List Char × ℕ)) (h : items.length ≤ maxI) :
    (productsStage3 maxI ls items).length ≤ maxI := by
  induction ls generalizing items with
  | nil => exact h
  | cons ln rest ih =>
    unfold productsStage3
    by_cases hm : maxI ≤ items.length
    · rw [if_pos hm]; exact h
    · rw [if_neg hm]
      cases hsearch : (rxSearch PRODUCT_CODE_RE ln).bind (fun m => capGet m.2.2 1) with
      | none => exact ih items h
      | some be =>
        apply ih
        simp only [List.length_append, List.length_cons, List.length_nil]
        omega

/-- C6 counterexample: `extract_products` emits the duplicate
(case-folded name, quantity) pair ("khind fan", 1) twice (the
marker-row stage does not de-duplicate), and with `max_items = 0` the
returned list exceeds the cap. -/
theorem products_cap_dedup_counterexample :
    extract_products [S "KHIND FAN", S "KHIND FAN"] 3 none =
      [(S "KHIND FAN", 1), (S "KHIND FAN", 1), (S "KHIND", 1)] ∧
    extract_products [S "KHIND FAN"] 0 none = [(S "KHIND FAN", 1)] :=
  ⟨rfl, rfl⟩

/-- C6 amended: for every receipt, every curated hint list (including
none) and every `max_items ≥ 1`, the product list has length at most
`max_items` (for `max_items = 0` the cap can be exceeded by one), and
de-duplication by (case-folded name, quantity) holds only within the
curated-hints stage — the marker-row and product-code stages append
without de-duplication, so duplicate pairs can appear. -/
theorem extract_products_cap (lines : List (List Char)) (maxI : ℕ)
    (pref : Option (List (List Char))) (h : 1 ≤ maxI) :
    (extract_products lines maxI pref).length ≤ maxI := by
  unfold extract_products
  have hcont : ∀ items : List (List Char × ℕ), items.length < maxI →
      (match productsStage2 maxI (_find_khind_rows lines) items with
        | (r, true) => r
        | (items2, false) => productsStage3 maxI lines items2).length ≤ maxI := by
    intro items hlt
    have h2 := productsStage2_cap (_find_khind_rows lines) items hlt
    cases hs2 : productsStage2 maxI (_find_khind_rows lines) items with
    | mk items2 flag =>
      rw [hs2] at h2
      cases flag with
      | true => exact h2.1
      | false => exact productsStage3_cap lines items2 h2.1
  cases pref with
  | none =>
    simp only [PREFERRED_PRODUCT_HINTS]
    exact hcont [] (by simpa using h)
  | some ps =>
    simp only
    by_cases hps : ps = []
    · rw [if_pos hps]
      exact hcont [] (by simpa using h)
    · rw [if_neg hps]
      by_cases hm : maxI ≤ (([] : List (List Char × ℕ)) ++ _match_preferred_items lines ps maxI).length
      · rw [if_pos hm]
        simpa using mpi_cap lines ps (Nat.lt_of_lt_of_le Nat.zero_lt_one h)
      · rw [if_neg hm]
        exact hcont _ (Nat.lt_of_not_le hm)

/-- Witness for C6 (amended): the duplicate-emitting receipt still
respects the cap 3. -/
theorem extract_products_cap_witness :
    (extract_products [S "KHIND FAN", S "KHIND FAN"] 3 none).length ≤ 3 :=
  extract_products_cap [S "KHIND FAN", S "KHIND FAN"] 3 none (by decide)

/-- A line with no recognized region name yields no location. -/
theorem ecsl_none {ln : List Char}
    (h : ∀ kv ∈ STATE_SET, containsL kv.1 (lowerL (locTxt ln)) = false) :
    _extract_city_state_from_line ln = none := by
  have hfind : STATE_SET.find? (fun kv => containsL kv.1 (lowerL (locTxt ln))) = none :=
    List.find?_eq_none.mpr (fun kv hkv => by simp [h kv hkv])
  simp only [_extract_city_state_from_line]
  rw [hfind]

/-- C7: the Location Resolver never consults the submitter-provided
fallback city/state — `extract_store_location` returns the same result
for any two pairs of fallback arguments — and when no recognized
region name occurs on any line it returns `none` rather than falling
back to them. -/
theorem location_ignores_fallback (lines : List (List Char))
    (fc fs fc' fs' : Option (List Char)) :
    extract_store_location lines fc fs = extract_store_location lines fc' fs' ∧
    ((∀ ln ∈ lines, ∀ kv ∈ STATE_SET, containsL kv.1 (lowerL (locTxt ln)) = false) →
      extract_store_location lines fc fs = none) := by
  refine ⟨rfl, fun h => ?_⟩
  have hline : ∀ ln ∈ lines, _extract_city_state_from_line ln = none :=
    fun ln hln => ecsl_none (h ln hln)
  have h20 : (lines.take 20).findSome? _extract_city_state_from_line = none :=
    findSome?_none (fun a ha => hline a (List.take_subset 20 lines ha))
  have hrev : lines.reverse.findSome? _extract_city_state_from_line = none :=
    findSome?_none (fun a ha => hline a (List.mem_reverse.mp ha))
  unfold extract_store_location
  cases hsm : _match_known_store lines none with
  | none => simp only [STORE_LOC_MAP]; rw [h20, hrev]
  | some m =>
    cases m with
    | mk a b => simp only [STORE_LOC_MAP]; rw [h20, hrev]

/-- Witness for C7: a receipt with no region name gives `none`, and
two different fallback pairs (one naming Penang, one naming Johor)
give identical results. -/
theorem location_ignores_fallback_witness :
    extract_store_location [S "ABC STORE"] (some (S "Penang")) none =
      extract_store_location [S "ABC STORE"] none (some (S "Johor")) ∧
    extract_store_location [S "ABC STORE"] (some (S "Penang")) none = none :=
  ⟨(location_ignores_fallback [S "ABC STORE"] (some (S "Penang")) none
      none (some (S "Johor"))).1,
   (location_ignores_fallback [S "ABC STORE"] (some (S "Penang")) none
      none (some (S "Johor"))).2 (by decide)⟩

/-- C8: the Numeric Normalizer's three reference cases: a comma
between a dot-terminated tail is a thousands separator, a trailing
comma group is the decimal point, and letters alone parse to nothing. -/
theorem normalize_reference_cases :
    _normalize_amount (S "1,234.56") = some (S "RM1234.56") ∧
    _normalize_amount (S "12,50") = some (S "RM12.50") ∧
    _normalize_amount (S "abc") = none :=
  ⟨by decide, by decide, by decide⟩

/-- A padded cents remainder is exactly two digits. -/
theorem pad2_len : ∀ n < 100, (pad2 n).length = 2 := by decide

/-- Every canonical emission contains the decimal dot. -/
theorem dot_mem_fmtRM (c : ℕ) : '.' ∈ fmtRM c :=
  List.mem_append.mpr (Or.inr (List.mem_cons_self _ _))

/-- C9 counterexample: CPython `float` on a 309-digit string overflows
to `inf` without raising, so `_normalize_amount` returns the
non-canonical string `RMinf` — the claimed canonical two-decimal shape
fails (no canonical emission lacks a decimal dot). -/
theorem normalize_canonical_counterexample :
    _normalize_amount (List.replicate 309 '9') = some (S "RMinf") ∧
    ¬ ∃ c : ℕ, S "RMinf" = fmtRM c := by
  refine ⟨by decide, fun hex => ?_⟩
  obtain ⟨c, hc⟩ := hex
  exact absurd (hc ▸ dot_mem_fmtRM c) (by decide)

/-- C9 amended: the Numeric Normalizer is total (it is a Lean function
defined on every string, so it terminates and no exception escapes:
failure is the `none` value), and every non-`none` result is either
the non-canonical overflow rendering `RMinf` (when the parsed value
reaches the double-overflow cutoff) or the canonical `RM`-prefixed
string with a dot and exactly two decimal digits. -/
theorem normalize_total_and_canonical (val out : List Char)
    (h : _normalize_amount val = some out) :
    out = S "RMinf" ∨
    ∃ c : ℕ, out = fmtRM c ∧
      out = S "RM" ++ natDigitsL (c / 100) ++ '.' :: pad2 (c % 100) ∧
      (pad2 (c % 100)).length = 2 := by
  simp only [_normalize_amount] at h
  split at h
  · simp at h
  · split at h
    next n d _ =>
      cases h
      exact Or.inr ⟨roundHalfEvenCents n d, rfl, rfl,
        pad2_len _ (Nat.mod_lt _ (by norm_num))⟩
    next => cases h; exact Or.inl rfl
    next => simp at h

/-- Witness for C9 (amended): the canonical branch at the concrete
result `RM12.50`. -/
theorem normalize_total_and_canonical_witness :
    S "RM12.50" = S "RMinf" ∨
    ∃ c : ℕ, S "RM12.50" = fmtRM c ∧
      S "RM12.50" = S "RM" ++ natDigitsL (c / 100) ++ '.' :: pad2 (c % 100) ∧
      (pad2 (c % 100)).length = 2 :=
  normalize_total_and_canonical (S "12,50") (S "RM12.50") (by decide)

/-- C10 (implicit): in the per-line candidate selection of the
Target-Item Price Resolver, when every highest-confidence candidate of
the line is rejected (by the bound or the quantity-context filter) but
some candidate is still acceptable, `_choose_rightmost_best` returns
the value of the rightmost acceptable candidate (necessarily of lower
confidence) instead of skipping the line. -/
theorem choose_falls_to_lower_confidence (cands : List (ℕ × ℕ × ℕ)) (line : List Char)
    (c0 : ℕ × ℕ × ℕ)
    (hbest : ∀ c ∈ cands,
      c.2.2 = (cands.map (fun d => d.2.2)).foldl Nat.max 0 → acceptCand line c = false)
    (hacc : cands.reverse.find? (acceptCand line) = some c0) :
    _choose_rightmost_best cands line = some c0.2.1 := by
  cases cands with
  | nil => simp at hacc
  | cons a t =>
    have hnone : ((a :: t).filter
        (fun c => c.2.2 == ((a :: t).map (fun c => c.2.2)).foldl Nat.max 0)).reverse.find?
          (acceptCand line) = none := by
      apply List.find?_eq_none.mpr
      intro x hx
      rw [List.mem_reverse, List.mem_filter] at hx
      simp [hbest x hx.1 (by simpa using hx.2)]
    unfold _choose_rightmost_best
    simp only
    rw [hnone, hacc]
    rfl

/-- Witness for C10: on the line `KHIND X RM1.00 3.50` the only
currency-tagged (confidence 3) candidate RM1.00 is below the bound,
and the lower-confidence bare token 3.50 is selected and becomes the
resolved price. -/
theorem choose_falls_to_lower_confidence_witness :
    _choose_rightmost_best [(10, 100, 3), (15, 350, 2)] (S "KHIND X RM1.00 3.50") =
      some 350 ∧
    _price_candidates (S "KHIND X RM1.00 3.50") = [(10, 100, 3), (15, 350, 2)] ∧
    _khind_line_amount [S "KHIND X RM1.00 3.50"] = some (S "RM3.50") :=
  ⟨choose_falls_to_lower_confidence [(10, 100, 3), (15, 350, 2)]
      (S "KHIND X RM1.00 3.50") (15, 350, 2) (by decide) (by decide),
   rfl, rfl⟩

end KhindOCR
